import Mathlib

/-!
Verification of the wifinina-rs driver core: a shallow embedding of the
command/response transport (`src/commands.rs`), the socket lifecycle
(`src/commands/socket.rs`) and the chip-select handshake
(`src/chip_select.rs`), with theorems settling the specified properties.

Bytes are modelled as `Nat` values reduced modulo 256 where the source
works with `u8`; 16-bit quantities modulo 65536 where it works with `u16`.
The SPI bus is modelled as a read stream `σ : Nat → Nat` (the sequence of
bytes the co-processor drives on the bus, one per transfer) together with
an explicit position; the write side is modelled as the list of bytes the
driver sends.
-/

namespace WifiNina

/-- `NinaCommand::Start`: the frame start marker. -/
def startMarker : Nat := 0xE0

/-- `NinaCommand::End`: the frame end marker. -/
def endMarker : Nat := 0xEE

/-- `NinaCommand::Error`: the explicit error sentinel byte. -/
def errorMarker : Nat := 0xEF

/-- `REPLY_FLAG`: bit 7, set on reply opcodes. -/
def replyFlag : Nat := 0x80

/-- `NinaResponse::Ack`. -/
def ackByte : Nat := 1

/-- `NinaCommand::GetSocket`. -/
def getSocket : Nat := 0x3F

/-- `NinaCommand::GetClientStateTcp`. -/
def getClientStateTcp : Nat := 0x2F

/-- `NinaCommand::StartClientTcp`. -/
def startClientTcp : Nat := 0x2D

/-- `NinaCommand::StopClientTcp`. -/
def stopClientTcp : Nat := 0x2E

/-- `NinaCommand::AvailableDataTcp`. -/
def availableDataTcp : Nat := 0x2B

/-- `NinaCommand::GetDatabufTcp`. -/
def getDatabufTcp : Nat := 0x45

/-- `SendParam` from `src/commands.rs`: a typed request parameter.
`bytes` models `SendParam::Bytes`, an exact-size iterator, as the list of
bytes it yields. -/
inductive SendParam : Type
  | byte (b : Nat)
  | word (w : Nat)
  | leword (w : Nat)
  | bytes (bs : List Nat)
deriving DecidableEq

/-- The payload bytes written for one request parameter (`write_bytes`
calls in `send_command`): a single byte, a `u16` in big endian, a `u16`
in little endian, or the iterator's bytes. -/
def SendParam.payload : SendParam → List Nat
  | .byte b => [b % 256]
  | .word w => [w % 65536 / 256, w % 256]
  | .leword w => [w % 256, w % 65536 / 256]
  | .bytes bs => bs.map (· % 256)

/-- The length passed to `write_len` for one request parameter: 1 for a
byte, 2 for either word form, `it.len()` for an iterator. -/
def SendParam.declLen : SendParam → Nat
  | .byte _ => 1
  | .word _ => 2
  | .leword _ => 2
  | .bytes bs => bs.length

/-- The length field bytes written by `write_len` in `send_command`:
`(len as u16).to_be_bytes()` in 16-bit mode, `[len as u8]` in 8-bit
mode. -/
def lengthField (use16 : Bool) (len : Nat) : List Nat :=
  if use16 then [len % 65536 / 256, len % 256] else [len % 256]

/-- The running `sent_len` contribution of the parameter section of a
request: `write_len` adds the declared length plus 2 (16-bit mode) or
1 (8-bit mode) per parameter. -/
def sentLenParams (use16 : Bool) : List SendParam → Nat
  | [] => 0
  | p :: ps => (if use16 then 2 else 1) + p.declLen + sentLenParams use16 ps

/-- The bytes written for the parameter section of a request: for each
parameter in order, its length field then its payload. -/
def sendParamsBytes (use16 : Bool) : List SendParam → List Nat
  | [] => []
  | p :: ps => lengthField use16 p.declLen ++ p.payload ++ sendParamsBytes use16 ps

/-- One iteration bound of the `while sent_len % 4 != 0` padding loop of
`send_command`: append a zero while the running count is not a multiple
of 4. The fuel only bounds the recursion; the loop stops via its
condition after at most 3 zeros, so a fuel of 4 is exact. -/
def padFromFuel : Nat → Nat → List Nat
  | _, 0 => []
  | k, f + 1 => if k % 4 = 0 then [] else 0 :: padFromFuel (k + 1) f

/-- The zero padding written by the closing `while sent_len % 4 != 0`
loop of `send_command`, starting from byte count `k`. -/
def padFrom (k : Nat) : List Nat := padFromFuel k 4

/-- `send_command` from `src/commands.rs`, as the full list of bytes it
writes on the bus: start marker, opcode with the reply flag masked off,
parameter count byte, the parameter section, the end marker, and zero
padding to a multiple of 4 bytes (tracked by `sent_len`, which starts at
3 after the header and gains 1 for the end marker). -/
def sendCommand (cmd : Nat) (use16 : Bool) (params : List SendParam) : List Nat :=
  [startMarker, Nat.land cmd 0x7F, params.length % 256]
    ++ sendParamsBytes use16 params
    ++ [endMarker]
    ++ padFrom (3 + sentLenParams use16 params + 1)

/-- The payload of a request parameter has exactly its declared length. -/
theorem SendParam.payload_length (p : SendParam) : p.payload.length = p.declLen := by
  cases p <;> simp [SendParam.payload, SendParam.declLen]

theorem lengthField_length (use16 : Bool) (len : Nat) :
    (lengthField use16 len).length = if use16 then 2 else 1 := by
  cases use16 <;> simp [lengthField]

theorem sendParamsBytes_length (use16 : Bool) (ps : List SendParam) :
    (sendParamsBytes use16 ps).length = sentLenParams use16 ps := by
  induction ps with
  | nil => simp [sendParamsBytes, sentLenParams]
  | cons p ps ih =>
    simp [sendParamsBytes, sentLenParams, lengthField_length, SendParam.payload_length, ih]
    cases use16 <;> simp <;> omega

/-- The padding loop emits exactly the zeros needed to reach the next
multiple of 4. -/
theorem padFrom_eq (k : Nat) : padFrom k = List.replicate ((4 - k % 4) % 4) 0 := by
  have h : k % 4 = 0 ∨ k % 4 = 1 ∨ k % 4 = 2 ∨ k % 4 = 3 := by omega
  rcases h with h | h | h | h
  · simp [padFrom, padFromFuel, h]
  · have h1 : (k + 1) % 4 = 2 := by omega
    have h2 : (k + 2) % 4 = 3 := by omega
    have h3 : (k + 3) % 4 = 0 := by omega
    simp [padFrom, padFromFuel, h, h1, h2, h3, List.replicate]
  · have h1 : (k + 1) % 4 = 3 := by omega
    have h2 : (k + 2) % 4 = 0 := by omega
    simp [padFrom, padFromFuel, h, h1, h2, List.replicate]
  · have h1 : (k + 1) % 4 = 0 := by omega
    simp [padFrom, padFromFuel, h, h1, List.replicate]

/-- The parameter section equals, parameter by parameter, the
length-field-then-payload encoding written out explicitly, when every
declared length fits the mode's length field width. -/
theorem sendParamsBytes_spec (use16 : Bool) (ps : List SendParam)
    (h : ∀ p ∈ ps, p.declLen < if use16 then 65536 else 256) :
    sendParamsBytes use16 ps =
      (ps.map (fun p =>
        (if use16 then [p.declLen / 256, p.declLen % 256] else [p.declLen])
          ++ p.payload)).flatten := by
  induction ps with
  | nil => simp [sendParamsBytes]
  | cons p ps ih =>
    have hp := h p (by simp)
    have hps : ∀ q ∈ ps, q.declLen < if use16 then 65536 else 256 := fun q hq => h q (by simp [hq])
    cases use16 with
    | false =>
      simp at hp
      simp [sendParamsBytes, lengthField, ih hps, Nat.mod_eq_of_lt hp]
    | true =>
      simp at hp
      simp [sendParamsBytes, lengthField, ih hps, Nat.mod_eq_of_lt hp]

/-- Claim C1: a successful `send_command` writes exactly the start marker
`0xE0`, the opcode with bit 7 masked to zero, the parameter count byte,
then for each parameter in order its length field (1 byte in 8-bit mode,
2 bytes big-endian in 16-bit mode) followed by its payload bytes, then
the end marker `0xEE`, then zero bytes (fewer than 4) until the total
number of bytes written since and including the start marker is a
multiple of 4. -/
theorem send_command_wire_format (cmd : Nat) (use16 : Bool) (params : List SendParam)
    (hcount : params.length < 256)
    (hlens : ∀ p ∈ params, p.declLen < if use16 then 65536 else 256) :
    (∃ n, n < 4 ∧
      sendCommand cmd use16 params =
        [0xE0, Nat.land cmd 0x7F, params.length]
          ++ (params.map (fun p =>
              (if use16 then [p.declLen / 256, p.declLen % 256] else [p.declLen])
                ++ p.payload)).flatten
          ++ [0xEE]
          ++ List.replicate n 0)
    ∧ (sendCommand cmd use16 params).length % 4 = 0 := by
  constructor
  · refine ⟨(4 - (3 + sentLenParams use16 params + 1) % 4) % 4, by omega, ?_⟩
    rw [sendCommand, padFrom_eq, sendParamsBytes_spec use16 params hlens,
      Nat.mod_eq_of_lt hcount]
    rfl
  · rw [sendCommand]
    simp [sendParamsBytes_length, padFrom_eq]
    omega

/-- Concrete instance of claim C1: a two-parameter 8-bit-mode request. -/
theorem send_command_wire_format_witness :
    (∃ n, n < 4 ∧
      sendCommand 0x2D false [SendParam.byte 7, SendParam.bytes [1, 2, 3]] =
        [0xE0, Nat.land 0x2D 0x7F, 2]
          ++ (([SendParam.byte 7, SendParam.bytes [1, 2, 3]].map (fun p =>
              (if false then [p.declLen / 256, p.declLen % 256] else [p.declLen])
                ++ p.payload)).flatten)
          ++ [0xEE]
          ++ List.replicate n 0)
    ∧ (sendCommand 0x2D false [SendParam.byte 7, SendParam.bytes [1, 2, 3]]).length % 4 = 0 :=
  send_command_wire_format 0x2D false [SendParam.byte 7, SendParam.bytes [1, 2, 3]]
    (by decide) (by decide)

/-- `WifiStatus` from `src/commands/wifi.rs`. -/
inductive WifiStatus : Type
  | idle | noSsidAvailable | scanCompleted | connected | connectFailed
  | connectionLost | disconnected | apListening | apConnected | apFailed
  | unknownStatus
deriving DecidableEq

/-- `SocketStatus` from `src/commands/socket.rs`. -/
inductive SocketStatus : Type
  | closed | listen | synSent | synReceived | established
  | finWait1 | finWait2 | closeWait | closing | lastAck | timeWait
  | unknownStatus
deriving DecidableEq

/-- `From<u8> for SocketStatus`: unrecognized bytes map to
`UnknownStatus`. -/
def SocketStatus.fromByte : Nat → SocketStatus
  | 0 => .closed
  | 1 => .listen
  | 2 => .synSent
  | 3 => .synReceived
  | 4 => .established
  | 5 => .finWait1
  | 6 => .finWait2
  | 7 => .closeWait
  | 8 => .closing
  | 9 => .lastAck
  | 10 => .timeWait
  | _ => .unknownStatus

/-- `Error` from `src/lib.rs` (the `SpiError` payload is not modelled:
the model assumes the raw bus transfers themselves succeed). -/
inductive Error : Type
  | chipSelectPinError
  | chipSelectTimeout
  | responseTimeout
  | missingParam (idx : Nat)
  | unexpectedParam (idx : Nat)
  | mismatchedParamSize (expected actual : Nat)
  | errorResponse
  | unexpectedResponse (expected actual : Nat)
  | connectionFailed (s : WifiStatus)
  | connectionTimeout
  | socketConnectionFailed (s : SocketStatus)
  | socketClosed
  | socketTimeout
  | noSocketAvailable
  | resetPinError
deriving DecidableEq

/-- `RecvParam` from `src/commands.rs`: one declared reply slot. The
mutable-reference decode targets become capacities here; decoded values
are returned in `RecvValue`. -/
inductive RecvParam : Type
  | ack
  | expectByte (b : Nat)
  | byte
  | optionalByte
  | word
  | leword
  | byteArray (cap : Nat)
  | buffer (cap : Nat)
  | socket
deriving DecidableEq

/-- The value decoded into one reply slot's target. -/
inductive RecvValue : Type
  | ackOk
  | expectOk
  | byte (b : Nat)
  | optByte (o : Option Nat)
  | word (w : Nat)
  | leword (w : Nat)
  | byteArray (bs : List Nat)
  | buffer (bs : List Nat) (len : Nat)
  | socket (n : Nat)
deriving DecidableEq

/-- Outcome of a fallible driver operation: success, one of the driver's
`Error` values, or a Rust panic (an out-of-bounds slice index). -/
inductive Outcome (α : Type) : Type
  | ok (a : α)
  | err (e : Error)
  | panicked
deriving DecidableEq

/-- A read stream built from a list (bytes past the end read as 0). -/
def streamOf (l : List Nat) : Nat → Nat := fun i => l.getD i 0

/-- One `transfer_byte` on the bus: the co-processor's byte at stream
position `pos`, as a `u8`. -/
def transferByte (σ : Nat → Nat) (pos : Nat) : Nat := σ pos % 256

/-- `n` consecutive `transfer_byte` reads starting at `pos`. -/
def readBytes (σ : Nat → Nat) (pos n : Nat) : List Nat :=
  (List.range n).map (fun i => transferByte σ (pos + i))

/-- `wait_for_response_start` from `src/commands.rs`: read single bytes
(the source delays 1 ms between attempts) until the start marker; the
error sentinel fails immediately with `ErrorResponse`; running out of the
fuel budget (100 in the source) is `ResponseTimeout`. Returns the stream
position after the start marker. -/
def waitForResponseStart (σ : Nat → Nat) (pos : Nat) : Nat → Except Error Nat
  | 0 => .error .responseTimeout
  | fuel + 1 =>
    if transferByte σ pos = startMarker then .ok (pos + 1)
    else if transferByte σ pos = errorMarker then .error .errorResponse
    else waitForResponseStart σ (pos + 1) fuel

/-- `expect_byte` from `src/commands.rs`: read one byte and require it to
equal `target`, else `UnexpectedResponse(target, actual)`. -/
def expectByte (σ : Nat → Nat) (pos target : Nat) : Except Error Nat :=
  if transferByte σ pos = target then .ok (pos + 1)
  else .error (.unexpectedResponse target (transferByte σ pos))

/-- `read_len` from `receive_response`: a 2-byte big-endian length in
16-bit mode, else a single byte; when a length is expected, a mismatch is
`MismatchedParamSize(expected, actual)`. Returns the length and the new
stream position. -/
def readLen (σ : Nat → Nat) (use16 : Bool) (pos : Nat) (expect : Option Nat) :
    Except Error (Nat × Nat) :=
  let lp : Nat × Nat :=
    if use16 then (transferByte σ pos * 256 + transferByte σ (pos + 1), pos + 2)
    else (transferByte σ pos, pos + 1)
  match expect with
  | some e => if lp.1 = e then .ok lp else .error (.mismatchedParamSize e lp.1)
  | none => .ok lp

/-- One non-skipped arm of the `receive_response` parameter loop: decode
a single declared slot at stream position `pos`. A `Buffer` slot accepts
any declared length and copies it into the destination index by index,
so a length beyond the destination's capacity hits a bounds-checked
index and panics. -/
def readSlot (σ : Nat → Nat) (use16 : Bool) (p : RecvParam) (pos : Nat) :
    Outcome (RecvValue × Nat) :=
  match p with
  | .ack =>
    match readLen σ use16 pos (some 1) with
    | .error e => .err e
    | .ok (_, pos') =>
      match expectByte σ pos' ackByte with
      | .error e => .err e
      | .ok pos'' => .ok (.ackOk, pos'')
  | .expectByte b =>
    match readLen σ use16 pos (some 1) with
    | .error e => .err e
    | .ok (_, pos') =>
      match expectByte σ pos' b with
      | .error e => .err e
      | .ok pos'' => .ok (.expectOk, pos'')
  | .byte =>
    match readLen σ use16 pos (some 1) with
    | .error e => .err e
    | .ok (_, pos') => .ok (.byte (transferByte σ pos'), pos' + 1)
  | .optionalByte =>
    match readLen σ use16 pos (some 1) with
    | .error e => .err e
    | .ok (_, pos') => .ok (.optByte (some (transferByte σ pos')), pos' + 1)
  | .word =>
    match readLen σ use16 pos (some 2) with
    | .error e => .err e
    | .ok (_, pos') =>
      .ok (.word (transferByte σ pos' * 256 + transferByte σ (pos' + 1)), pos' + 2)
  | .leword =>
    match readLen σ use16 pos (some 2) with
    | .error e => .err e
    | .ok (_, pos') =>
      .ok (.leword (transferByte σ pos' + transferByte σ (pos' + 1) * 256), pos' + 2)
  | .byteArray cap =>
    match readLen σ use16 pos (some cap) with
    | .error e => .err e
    | .ok (_, pos') => .ok (.byteArray (readBytes σ pos' cap), pos' + cap)
  | .buffer cap =>
    match readLen σ use16 pos none with
    | .error e => .err e
    | .ok (len, pos') =>
      if len ≤ cap then .ok (.buffer (readBytes σ pos' len) len, pos' + len)
      else .panicked
  | .socket =>
    match readLen σ use16 pos (some 1) with
    | .error e => .err e
    | .ok (_, pos') => .ok (.socket (transferByte σ pos'), pos' + 1)

/-- Prepend a decoded value to a successful outcome; errors and panics
pass through. -/
def consValue (v : RecvValue) : Outcome (List RecvValue) → Outcome (List RecvValue)
  | .ok vs => .ok (v :: vs)
  | .err e => .err e
  | .panicked => .panicked

/-- The `for param_handler in params` loop of `receive_response`: when
the peer's reported count `cnt` is exhausted (`idx = cnt`), an
`OptionalByte` slot is skipped (its `Option` target stays `None`, the
index does not advance) and any other slot is `MissingParam(idx)`;
otherwise the slot is decoded and the index advances. After the loop,
`UnexpectedParam(idx)` exactly when `cnt > idx`. -/
def processParams (σ : Nat → Nat) (use16 : Bool) :
    List RecvParam → Nat → Nat → Nat → Outcome (List RecvValue)
  | [], _, cnt, idx =>
    if cnt > idx then .err (.unexpectedParam idx) else .ok []
  | p :: ps, pos, cnt, idx =>
    if idx = cnt then
      match p with
      | .optionalByte => consValue (.optByte none) (processParams σ use16 ps pos cnt idx)
      | _ => .err (.missingParam idx)
    else
      match readSlot σ use16 p pos with
      | .err e => .err e
      | .panicked => .panicked
      | .ok (v, pos') => consValue v (processParams σ use16 ps pos' cnt (idx + 1))

/-- `receive_response` from `src/commands.rs`, over the reply stream of a
freshly selected bus: scan for the start marker (budget 100), require the
opcode with the reply flag set, read the parameter-count byte, then run
the declared-slot loop. -/
def receiveResponse (σ : Nat → Nat) (cmd : Nat) (use16 : Bool) (params : List RecvParam) :
    Outcome (List RecvValue) :=
  match waitForResponseStart σ 0 100 with
  | .error e => .err e
  | .ok pos =>
    match expectByte σ pos (Nat.lor replyFlag (cmd % 256)) with
    | .error e => .err e
    | .ok pos' =>
      processParams σ use16 params (pos' + 1) (transferByte σ pos') 0

/-- `Protocol` from `src/commands/socket.rs`. -/
inductive Protocol : Type
  | tcp | udp | tls
deriving DecidableEq

def Protocol.toByte : Protocol → Nat
  | .tcp => 0
  | .udp => 1
  | .tls => 2

/-- `Destination` from `src/commands/socket.rs`: a raw 4-byte address or
a host name (modelled as its bytes). -/
inductive Destination : Type
  | ip (a b c d : Nat)
  | hostname (bs : List Nat)
deriving DecidableEq

/-- `InvalidSocket::INVALID`: the reserved invalid-socket sentinel. -/
def invalidSocketNum : Nat := 255

/-- `InvalidSocket::valid`. -/
def invalidSocketValid (num : Nat) : Bool := num ≠ invalidSocketNum

/-- `TryInto<Socket> for InvalidSocket`: yields a usable socket number
exactly when the raw number passes the validity check. -/
def tryIntoSocket (num : Nat) : Option Nat :=
  if invalidSocketValid num then some num else none

/-- The `status` target of `socket_status` after a successful receive:
written by the `RecvParam::Byte` slot, initialized to 255 in the
source. -/
def statusByteOf : List RecvValue → Nat
  | [.byte b] => b
  | _ => 255

/-- The `u16` target of a single `RecvParam::LEWord` slot, initialized
to 0 in the source. -/
def lewordOf : List RecvValue → Nat
  | [.leword w] => w
  | _ => 0

/-- The reported-length target of a single `RecvParam::Buffer` slot,
initialized to 0 in the source. -/
def bufferLenOf : List RecvValue → Nat
  | [.buffer _ l] => l
  | _ => 0

/-- The raw socket number of a single `RecvParam::Socket` slot,
initialized to `InvalidSocket::new()` (255) in the source. -/
def socketNumOf : List RecvValue → Nat
  | [.socket n] => n
  | _ => 255

/-- The request frame sent by `socket_status`. -/
def statusFrame (socketNum : Nat) : List Nat :=
  sendCommand getClientStateTcp false [.byte socketNum]

/-- `socket_status` from `src/commands/socket.rs`: one
`GetClientStateTcp` exchange; the reply byte maps through
`SocketStatus::from`, unrecognized values to `UnknownStatus`. Returns
the frame sent and the outcome. -/
def socketStatus (σ : Nat → Nat) (socketNum : Nat) :
    List Nat × Outcome SocketStatus :=
  (statusFrame socketNum,
    match receiveResponse σ getClientStateTcp false [.byte] with
    | .ok vs => .ok (SocketStatus.fromByte (statusByteOf vs))
    | .err e => .err e
    | .panicked => .panicked)

/-- The `StartClientTcp` request parameters of `socket_open`: a raw
address sends the 4 address bytes; a host name sends the name bytes
followed by a 4-byte zero placeholder address; then port (big-endian
word), socket number, protocol byte. -/
def socketOpenSendParams (dst : Destination) (port socketNum protoByte : Nat) :
    List SendParam :=
  match dst with
  | .ip a b c d => [.bytes [a % 256, b % 256, c % 256, d % 256],
      .word port, .byte socketNum, .byte protoByte]
  | .hostname bs => [.bytes bs, .bytes [0, 0, 0, 0],
      .word port, .byte socketNum, .byte protoByte]

/-- The `for _ in 0..300` status-polling loop of `socket_open`:
`exIdx` numbers the bus exchanges (each `socket_status` call is one
exchange, reading stream `dev exIdx`), `last` is the last observed
status. Exhausting the budget fails with
`SocketConnectionFailed(last_status)`; `Established` returns
immediately. Returns the status frames sent and the outcome. -/
def socketOpenPoll (dev : Nat → Nat → Nat) (socketNum : Nat) :
    Nat → Nat → SocketStatus → List (List Nat) × Outcome SocketStatus
  | _, 0, last => ([], .err (.socketConnectionFailed last))
  | exIdx, fuel + 1, _ =>
    match (socketStatus (dev exIdx) socketNum).2 with
    | .err e => ([statusFrame socketNum], .err e)
    | .panicked => ([statusFrame socketNum], .panicked)
    | .ok st =>
      if st = SocketStatus.established then
        ([statusFrame socketNum], .ok SocketStatus.established)
      else
        let r := socketOpenPoll dev socketNum (exIdx + 1) fuel st
        (statusFrame socketNum :: r.1, r.2)

/-- `socket_open` from `src/commands/socket.rs`: one `StartClientTcp`
exchange (reply: a single optional result byte); an absent result byte
fails immediately with `SocketConnectionFailed(UnknownStatus)`;
otherwise poll `socket_status` up to 300 times (10 ms apart in the
source) for `Established`. `dev k` is the reply stream of the `k`-th
bus exchange. Returns all frames sent and the outcome. -/
def socketOpen (dev : Nat → Nat → Nat) (socketNum : Nat) (proto : Protocol)
    (dst : Destination) (port : Nat) : List (List Nat) × Outcome SocketStatus :=
  let frame0 := sendCommand startClientTcp false
    (socketOpenSendParams dst port socketNum proto.toByte)
  match receiveResponse (dev 0) startClientTcp false [.optionalByte] with
  | .err e => ([frame0], .err e)
  | .panicked => ([frame0], .panicked)
  | .ok vs =>
    let result : Option Nat :=
      match vs with
      | [.optByte o] => o
      | _ => none
    match result with
    | none => ([frame0], .err (.socketConnectionFailed SocketStatus.unknownStatus))
    | some _ =>
      let r := socketOpenPoll dev socketNum 1 300 SocketStatus.unknownStatus
      (frame0 :: r.1, r.2)

/-- Outcome of `socket_read`: mirrors `Result<usize, nb::Error<Error>>`
(a would-block signal besides the driver errors), plus the panic case. -/
inductive NbOutcome : Type
  | ok (n : Nat)
  | wouldBlock
  | err (e : Error)
  | panicked
deriving DecidableEq

/-- `socket_read` from `src/commands/socket.rs`: query available bytes
(`AvailableDataTcp`, little-endian reply); if zero, map status `Closed`
to `Ok(0)` and anything else to `WouldBlock`; otherwise request
`min(available, buf.len() as u16)` bytes via a 16-bit-length
`GetDatabufTcp` exchange into the buffer and return the reported
length. `dev k` is the reply stream of the `k`-th exchange; `bufCap` is
the destination buffer's length. Returns the frames sent and the
outcome. -/
def socketRead (dev : Nat → Nat → Nat) (socketNum bufCap : Nat) :
    List (List Nat) × NbOutcome :=
  let frame0 := sendCommand availableDataTcp false [.byte socketNum]
  match receiveResponse (dev 0) availableDataTcp false [.leword] with
  | .err e => ([frame0], .err e)
  | .panicked => ([frame0], .panicked)
  | .ok vs =>
    let available := lewordOf vs
    if available = 0 then
      match (socketStatus (dev 1) socketNum).2 with
      | .err e => ([frame0, statusFrame socketNum], .err e)
      | .panicked => ([frame0, statusFrame socketNum], .panicked)
      | .ok st =>
        if st = SocketStatus.closed then ([frame0, statusFrame socketNum], .ok 0)
        else ([frame0, statusFrame socketNum], .wouldBlock)
    else
      let reqSize := min available (bufCap % 65536)
      let frame1 := sendCommand getDatabufTcp true [.byte socketNum, .leword reqSize]
      match receiveResponse (dev 1) getDatabufTcp true [.buffer bufCap] with
      | .err e => ([frame0, frame1], .err e)
      | .panicked => ([frame0, frame1], .panicked)
      | .ok vs' => ([frame0, frame1], .ok (bufferLenOf vs'))

/-- `socket_new` from `src/commands/socket.rs`: one `GetSocket`
exchange into an `InvalidSocket`, then the `TryInto<Socket>` validity
check; an invalid handle is `NoSocketAvailable`. Returns the frame sent
and the outcome (the usable socket number). -/
def socketNew (σ : Nat → Nat) : List Nat × Outcome Nat :=
  (sendCommand getSocket false [],
    match receiveResponse σ getSocket false [.socket] with
    | .ok vs =>
      match tryIntoSocket (socketNumOf vs) with
      | some s => .ok s
      | none => .err .noSocketAvailable
    | .err e => .err e
    | .panicked => .panicked)

/-- `select_available` from `src/commands/socket.rs`: one
`AvailableDataTcp` exchange on the server socket; the pending client
handle comes back as a little-endian word; `(client_socket as u8)` is
checked against the sentinel via `TryInto<Socket>` and the connected
socket is rebuilt from the same raw number. Returns the frame sent and
the outcome (the connected socket's number). -/
def selectAvailable (σ : Nat → Nat) (serverNum : Nat) : List Nat × Outcome Nat :=
  (sendCommand availableDataTcp false [.byte serverNum],
    match receiveResponse σ availableDataTcp false [.leword] with
    | .ok vs =>
      match tryIntoSocket (lewordOf vs % 256) with
      | some _ => .ok (lewordOf vs % 256)
      | none => .err .noSocketAvailable
    | .err e => .err e
    | .panicked => .panicked)

/-- `socket_close` from `src/commands/socket.rs`: one `StopClientTcp`
exchange expecting an ack. Returns the frame sent and the outcome. -/
def socketClose (σ : Nat → Nat) (socketNum : Nat) : List Nat × Outcome Unit :=
  (sendCommand stopClientTcp false [.byte socketNum],
    match receiveResponse σ stopClientTcp false [.ack] with
    | .ok _ => .ok ()
    | .err e => .err e
    | .panicked => .panicked)

/-- `Drop for ConnectedSocket`: `self.wifi.socket_close(&self.socket).ok()`
— issue the close request for the owned handle and discard the result
(the unit second component records that nothing can propagate). -/
def connectedSocketDrop (σ : Nat → Nat) (socketNum : Nat) : List Nat × Unit :=
  ((socketClose σ socketNum).1, ())

/-- `WifiNinaChipSelectError` from `src/chip_select.rs` (pin error
payloads are not modelled). -/
inductive CsError : Type
  | csPinError
  | busyPinError
  | deviceReadyTimeout
deriving DecidableEq

/-- `wait_for_busy` from `src/chip_select.rs`: poll the busy line (1 ms
apart in the source) until it reads `val`; a pin read error
(`busy pos = none`) aborts immediately; exhausting the `timeout` budget
is `DeviceReadyTimeout`. `busy i` is the level read by the `i`-th read
of the busy line overall; returns the position after the successful
read. -/
def waitForBusy (busy : Nat → Option Bool) (pos : Nat) (val : Bool) :
    Nat → Except CsError Nat
  | 0 => .error .deviceReadyTimeout
  | fuel + 1 =>
    match busy pos with
    | none => .error .busyPinError
    | some b =>
      if b = val then .ok (pos + 1)
      else waitForBusy busy (pos + 1) val fuel

/-- `WifiNinaChipSelect::select` from `src/chip_select.rs`: wait (budget
10,000) for the busy line to read not-busy, drive chip select low
(`csLowOk` is whether that pin write succeeds), then wait (budget 1,000)
for the busy line to read busy. Returns the total number of busy-line
reads on success. -/
def csSelect (busy : Nat → Option Bool) (csLowOk : Bool) : Except CsError Nat :=
  match waitForBusy busy 0 false 10000 with
  | .error e => .error e
  | .ok pos1 =>
    if csLowOk then
      match waitForBusy busy pos1 true 1000 with
      | .error e => .error e
      | .ok pos2 => .ok pos2
    else .error .csPinError

theorem waitForResponseStart_timeout (σ : Nat → Nat) :
    ∀ fuel pos,
      (∀ j, j < fuel →
        transferByte σ (pos + j) ≠ startMarker ∧ transferByte σ (pos + j) ≠ errorMarker) →
      waitForResponseStart σ pos fuel = .error .responseTimeout := by
  intro fuel
  induction fuel with
  | zero => intro pos _; rfl
  | succ f ih =>
    intro pos h
    have h0 := h 0 (by omega)
    simp only [Nat.add_zero] at h0
    rw [waitForResponseStart, if_neg h0.1, if_neg h0.2]
    exact ih (pos + 1) (fun j hj => by
      rw [show pos + 1 + j = pos + (j + 1) by omega]
      exact h (j + 1) (by omega))

theorem waitForResponseStart_error (σ : Nat → Nat) :
    ∀ fuel pos k, k < fuel → transferByte σ (pos + k) = errorMarker →
      (∀ i, i < k →
        transferByte σ (pos + i) ≠ startMarker ∧ transferByte σ (pos + i) ≠ errorMarker) →
      waitForResponseStart σ pos fuel = .error .errorResponse := by
  intro fuel
  induction fuel with
  | zero => intro pos k hk _ _; omega
  | succ f ih =>
    intro pos k hk herr hbefore
    cases k with
    | zero =>
      simp only [Nat.add_zero] at herr
      have hne : transferByte σ pos ≠ startMarker := by rw [herr]; decide
      rw [waitForResponseStart, if_neg hne, if_pos herr]
    | succ k' =>
      have h0 := hbefore 0 (by omega)
      simp only [Nat.add_zero] at h0
      rw [waitForResponseStart, if_neg h0.1, if_neg h0.2]
      refine ih (pos + 1) k' (by omega) ?_ ?_
      · rw [show pos + 1 + k' = pos + (k' + 1) by omega]; exact herr
      · intro i hi
        rw [show pos + 1 + i = pos + (i + 1) by omega]
        exact hbefore (i + 1) (by omega)

/-- Claim C3: while scanning for the start marker, `receive_response`
polls up to 100 single bytes; reading the error sentinel `0xEF` before
any start marker fails immediately with `ErrorResponse`, which is a
different error from `ResponseTimeout`, and the sentinel is a different
byte from the start marker `0xE0`; exhausting the 100-poll budget yields
`ResponseTimeout`. -/
theorem receive_error_sentinel_vs_timeout (σ : Nat → Nat) (cmd : Nat) (use16 : Bool)
    (params : List RecvParam) :
    ((∀ i, i < 100 →
        transferByte σ i ≠ startMarker ∧ transferByte σ i ≠ errorMarker) →
      receiveResponse σ cmd use16 params = .err .responseTimeout)
    ∧ (∀ k, k < 100 → transferByte σ k = errorMarker →
        (∀ i, i < k →
          transferByte σ i ≠ startMarker ∧ transferByte σ i ≠ errorMarker) →
        receiveResponse σ cmd use16 params = .err .errorResponse)
    ∧ Error.errorResponse ≠ Error.responseTimeout
    ∧ errorMarker ≠ startMarker := by
  refine ⟨?_, ?_, by decide, by decide⟩
  · intro h
    have hw := waitForResponseStart_timeout σ 100 0 (fun j hj => by
      simpa using h j hj)
    simp [receiveResponse, hw]
  · intro k hk herr hbefore
    have hw := waitForResponseStart_error σ 100 0 k hk (by simpa using herr)
      (fun i hi => by simpa using hbefore i hi)
    simp [receiveResponse, hw]

/-- Concrete instance of claim C3: a stream of zero bytes exhausts the
100-poll budget and times out. -/
theorem receive_error_sentinel_vs_timeout_witness :
    receiveResponse (streamOf []) 0x20 false [] = .err Error.responseTimeout :=
  (receive_error_sentinel_vs_timeout (streamOf []) 0x20 false []).1 (by decide)

/-- Claim C2 falsified: a reply that declares a `Buffer` length larger
than the destination's capacity is not capped; the decode loop panics on
the out-of-bounds index instead of filling the capacity and reporting
the length. Here the peer declares 3 bytes for a 2-byte destination. -/
theorem receive_buffer_overlong_panics :
    receiveResponse (streamOf [0xE0, 0xA0, 1, 3, 9, 9, 9]) 0x20 false
      [RecvParam.buffer 2] = Outcome.panicked := by decide

/-- Claim C2 (amended): a `Buffer` slot accepts any peer-declared length
that is at most the destination's capacity, fills the destination with
exactly that many bytes and reports that length; a declared length
exceeding the capacity is not capped — the decode panics on a
bounds-checked index (so no write past the destination ever happens, but
the call does not return a result either). -/
theorem receive_buffer_fill_and_report (σ : Nat → Nat) (use16 : Bool)
    (cap pos len pos' : Nat)
    (h : readLen σ use16 pos none = .ok (len, pos')) :
    (len ≤ cap →
      readSlot σ use16 (.buffer cap) pos =
        .ok (.buffer (readBytes σ pos' len) len, pos' + len))
    ∧ (cap < len → readSlot σ use16 (.buffer cap) pos = .panicked) := by
  constructor
  · intro hle
    simp [readSlot, h, hle]
  · intro hlt
    simp [readSlot, h, Nat.not_le.mpr hlt]

/-- Concrete instance of claim C2 (amended): a declared length of 2 into
a 2-byte destination fills it and reports 2. -/
theorem receive_buffer_fill_and_report_witness :
    (2 ≤ 2 →
      readSlot (streamOf [2, 7, 8]) false (.buffer 2) 0 =
        .ok (.buffer (readBytes (streamOf [2, 7, 8]) 1 2) 2, 1 + 2))
    ∧ (2 < 2 → readSlot (streamOf [2, 7, 8]) false (.buffer 2) 0 = .panicked) :=
  receive_buffer_fill_and_report (streamOf [2, 7, 8]) false 2 0 2 1 rfl

/-- Claim C6: in the reply-slot loop, once the peer-reported parameter
count is exhausted an `OptionalByte` slot is skipped silently (its target
stays `None` and the slot index does not advance) while any other slot
type yields `MissingParam`; and once all declared slots are processed the
loop fails with `UnexpectedParam` exactly when the reported count exceeds
the number of slots processed. -/
theorem recv_param_count_discipline (σ : Nat → Nat) (use16 : Bool)
    (pos cnt idx : Nat) (ps : List RecvParam) (p : RecvParam) :
    (processParams σ use16 (.optionalByte :: ps) pos cnt cnt =
      consValue (.optByte none) (processParams σ use16 ps pos cnt cnt))
    ∧ (p ≠ .optionalByte →
      processParams σ use16 (p :: ps) pos cnt cnt = .err (.missingParam cnt))
    ∧ (processParams σ use16 [] pos cnt idx =
      if cnt > idx then .err (.unexpectedParam idx) else .ok []) := by
  refine ⟨by simp [processParams], ?_, by simp [processParams]⟩
  intro hp
  cases p
  case optionalByte => exact absurd rfl hp
  all_goals simp [processParams]

/-- Concrete instance of claim C6: with a reported count of 1, at index
1 an optional slot is skipped, an `Ack` slot raises `MissingParam 1`, and
an exhausted slot list with one reported parameter unprocessed raises
`UnexpectedParam 0`. -/
theorem recv_param_count_discipline_witness :
    (processParams (streamOf []) false [.optionalByte] 0 1 1 =
      consValue (.optByte none) (processParams (streamOf []) false [] 0 1 1))
    ∧ (processParams (streamOf []) false [.ack] 0 1 1 = .err (.missingParam 1))
    ∧ (processParams (streamOf []) false [] 0 1 0 =
      if 1 > 0 then .err (.unexpectedParam 0) else .ok []) := by
  have h := recv_param_count_discipline (streamOf []) false 0 1 0 ([] : List RecvParam) .ack
  exact ⟨h.1, h.2.1 (by decide), h.2.2⟩

theorem tryIntoSocket_some (num s : Nat) (h : tryIntoSocket num = some s) :
    s = num ∧ num ≠ invalidSocketNum := by
  unfold tryIntoSocket at h
  split at h
  · next hv =>
    cases h
    refine ⟨rfl, ?_⟩
    simpa [invalidSocketValid] using hv
  · cases h

/-- Claim C8: both APIs that hand out a usable socket handle check the
raw handle byte against the invalid sentinel 255 first: `socket_new`
fails with `NoSocketAvailable` exactly when the co-processor returns
255, `select_available` rejects a discovered client handle equal to 255,
and neither ever returns a usable handle numbered 255. -/
theorem socket_handle_sentinel_check :
    (∀ σ s, (socketNew σ).2 = .ok s → s ≠ invalidSocketNum)
    ∧ (∀ σ r, receiveResponse σ getSocket false [.socket] = .ok [.socket r] →
        ((socketNew σ).2 = .err .noSocketAvailable ↔ r = invalidSocketNum))
    ∧ (∀ σ sn s, (selectAvailable σ sn).2 = .ok s → s ≠ invalidSocketNum) := by
  refine ⟨?_, ?_, ?_⟩
  · intro σ s h
    simp only [socketNew] at h
    rcases hrec : receiveResponse σ getSocket false [.socket] with vs | e | _ <;>
      rw [hrec] at h <;> simp at h
    rcases ht : tryIntoSocket (socketNumOf vs) with _ | m <;> rw [ht] at h <;> simp at h
    rcases tryIntoSocket_some _ _ ht with ⟨hm, hnum⟩
    subst h; subst hm; exact hnum
  · intro σ r h
    simp only [socketNew]
    rw [h]
    by_cases hr : r = invalidSocketNum
    · subst hr
      simp [socketNumOf, tryIntoSocket, invalidSocketValid]
    · simp [socketNumOf, tryIntoSocket, invalidSocketValid, hr]
  · intro σ sn s h
    simp only [selectAvailable] at h
    rcases hrec : receiveResponse σ availableDataTcp false [.leword] with vs | e | _ <;>
      rw [hrec] at h <;> simp at h
    rcases ht : tryIntoSocket (lewordOf vs % 256) with _ | m <;> rw [ht] at h <;> simp at h
    rcases tryIntoSocket_some _ _ ht with ⟨_, hnum⟩
    subst h; exact hnum

/-- Concrete instance of claim C8: the co-processor returns the raw
handle 255 and `socket_new` fails with `NoSocketAvailable`. -/
theorem socket_handle_sentinel_check_witness :
    (socketNew (streamOf [0xE0, 0xBF, 1, 1, 255])).2 = .err Error.noSocketAvailable :=
  (socket_handle_sentinel_check.2.1 (streamOf [0xE0, 0xBF, 1, 1, 255]) 255
    (by decide)).mpr rfl

/-- Claim C9: dropping a `ConnectedSocket` issues exactly one close
request (`StopClientTcp` with the owned socket number) to the transport,
and the result of that close is discarded: the drop handler returns unit
no matter how the co-processor replies, so no error can propagate
outward. -/
theorem connected_socket_drop_closes (σ σ' : Nat → Nat) (num : Nat) :
    connectedSocketDrop σ num =
      (sendCommand stopClientTcp false [SendParam.byte num], ())
    ∧ connectedSocketDrop σ num = connectedSocketDrop σ' num :=
  ⟨rfl, rfl⟩

/-- Claim C10: when the `StartClientTcp` reply carries zero parameters
(the optional result byte is absent), `socket_open` fails immediately
with `SocketConnectionFailed(UnknownStatus)`: the only frame ever sent
is the start-client request itself, so no status poll or other command
is issued, whatever the device would answer on later exchanges. -/
theorem socket_open_absent_result (dev : Nat → Nat → Nat) (n : Nat) (proto : Protocol)
    (dst : Destination) (port : Nat)
    (h : receiveResponse (dev 0) startClientTcp false [.optionalByte] =
      .ok [.optByte none]) :
    socketOpen dev n proto dst port =
      ([sendCommand startClientTcp false (socketOpenSendParams dst port n proto.toByte)],
        .err (.socketConnectionFailed SocketStatus.unknownStatus)) := by
  simp [socketOpen, h]

/-- Concrete instance of claim C10: a reply frame with parameter count
zero. -/
theorem socket_open_absent_result_witness :
    socketOpen (fun _ => streamOf [0xE0, 0xAD, 0]) 3 Protocol.tcp
      (Destination.ip 192 0 2 1) 80 =
      ([sendCommand startClientTcp false
          (socketOpenSendParams (Destination.ip 192 0 2 1) 80 3 Protocol.tcp.toByte)],
        .err (.socketConnectionFailed SocketStatus.unknownStatus)) :=
  socket_open_absent_result (fun _ => streamOf [0xE0, 0xAD, 0]) 3 Protocol.tcp
    (Destination.ip 192 0 2 1) 80 (by decide)

theorem waitForBusy_budget_timeout (busy : Nat → Option Bool) (val : Bool) :
    ∀ fuel pos, (∀ j, j < fuel → busy (pos + j) = some (!val)) →
      waitForBusy busy pos val fuel = .error .deviceReadyTimeout := by
  intro fuel
  induction fuel with
  | zero => intro pos _; rfl
  | succ f ih =>
    intro pos h
    have h0 := h 0 (by omega)
    simp only [Nat.add_zero] at h0
    rw [waitForBusy, h0]
    show (if (!val) = val then Except.ok (pos + 1)
      else waitForBusy busy (pos + 1) val f) = _
    rw [if_neg (Bool.not_ne_self val)]
    exact ih (pos + 1) (fun j hj => by
      rw [show pos + 1 + j = pos + (j + 1) by omega]
      exact h (j + 1) (by omega))

theorem waitForBusy_success (busy : Nat → Option Bool) (val : Bool) :
    ∀ fuel pos k, k < fuel → (∀ j, j < k → busy (pos + j) = some (!val)) →
      busy (pos + k) = some val →
      waitForBusy busy pos val fuel = .ok (pos + k + 1) := by
  intro fuel
  induction fuel with
  | zero => intro pos k hk _ _; omega
  | succ f ih =>
    intro pos k hk hbefore hhit
    cases k with
    | zero =>
      simp only [Nat.add_zero] at hhit
      rw [waitForBusy, hhit]
      show (if val = val then Except.ok (pos + 1) else _) = _
      rw [if_pos rfl]
    | succ k' =>
      have h0 := hbefore 0 (by omega)
      simp only [Nat.add_zero] at h0
      rw [waitForBusy, h0]
      show (if (!val) = val then Except.ok (pos + 1)
        else waitForBusy busy (pos + 1) val f) = _
      rw [if_neg (Bool.not_ne_self val)]
      have hrec := ih (pos + 1) k' (by omega)
        (fun j hj => by
          rw [show pos + 1 + j = pos + (j + 1) by omega]
          exact hbefore (j + 1) (by omega))
        (by rw [show pos + 1 + k' = pos + (k' + 1) by omega]; exact hhit)
      rw [hrec]
      congr 1
      omega

theorem waitForBusy_pin_error (busy : Nat → Option Bool) (val : Bool) :
    ∀ fuel pos k, k < fuel → (∀ j, j < k → busy (pos + j) = some (!val)) →
      busy (pos + k) = none →
      waitForBusy busy pos val fuel = .error .busyPinError := by
  intro fuel
  induction fuel with
  | zero => intro pos k hk _ _; omega
  | succ f ih =>
    intro pos k hk hbefore hnone
    cases k with
    | zero =>
      simp only [Nat.add_zero] at hnone
      rw [waitForBusy, hnone]
    | succ k' =>
      have h0 := hbefore 0 (by omega)
      simp only [Nat.add_zero] at h0
      rw [waitForBusy, h0]
      show (if (!val) = val then Except.ok (pos + 1)
        else waitForBusy busy (pos + 1) val f) = _
      rw [if_neg (Bool.not_ne_self val)]
      exact ih (pos + 1) k' (by omega)
        (fun j hj => by
          rw [show pos + 1 + j = pos + (j + 1) by omega]
          exact hbefore (j + 1) (by omega))
        (by rw [show pos + 1 + k' = pos + (k' + 1) by omega]; exact hnone)

/-- Claim C5: `chip_select.select` times out with `DeviceReadyTimeout`
after exactly 10,000 unsuccessful busy-line polls (1 ms apart in the
source) before asserting chip select, and after exactly 1,000
unsuccessful polls afterwards; a busy-line read error aborts immediately
with the pin error; the timeout error differs from the pin errors; and
9,999 (resp. 999) unsuccessful polls followed by a successful one do not
time out. -/
theorem chip_select_polling (busy : Nat → Option Bool) (csLowOk : Bool) :
    ((∀ i, i < 10000 → busy i = some true) →
      csSelect busy csLowOk = .error .deviceReadyTimeout)
    ∧ (busy 0 = some false → (∀ i, 1 ≤ i → i ≤ 1000 → busy i = some false) →
      csLowOk = true → csSelect busy csLowOk = .error .deviceReadyTimeout)
    ∧ (∀ k, k < 10000 → (∀ i, i < k → busy i = some true) → busy k = none →
      csSelect busy csLowOk = .error .busyPinError)
    ∧ CsError.deviceReadyTimeout ≠ CsError.busyPinError
    ∧ CsError.deviceReadyTimeout ≠ CsError.csPinError
    ∧ ((∀ i, i < 9999 → busy i = some true) → busy 9999 = some false →
      busy 10000 = some true → csLowOk = true → csSelect busy csLowOk = .ok 10001)
    ∧ (busy 0 = some false → (∀ i, 1 ≤ i → i ≤ 999 → busy i = some false) →
      busy 1000 = some true → csLowOk = true → csSelect busy csLowOk = .ok 1001) := by
  refine ⟨?_, ?_, ?_, by decide, by decide, ?_, ?_⟩
  · intro h
    have hw := waitForBusy_budget_timeout busy false 10000 0 (fun j hj => by
      simpa using h j hj)
    simp [csSelect, hw]
  · intro h0 h1 hcs
    have hw1 := waitForBusy_success busy false 10000 0 0 (by omega)
      (fun j hj => by omega) (by simpa using h0)
    have hw2 := waitForBusy_budget_timeout busy true 1000 1 (fun j hj => by
      simpa using h1 (1 + j) (by omega) (by omega))
    simp only [Nat.zero_add] at hw1
    simp [csSelect, hw1, hw2, hcs]
  · intro k hk hbefore hnone
    have hw : waitForBusy busy 0 false 10000 = .error .busyPinError :=
      waitForBusy_pin_error busy false 10000 0 k hk
        (fun j hj => by simpa using hbefore j hj) (by simpa using hnone)
    simp [csSelect, hw]
  · intro hbefore hhit hsecond hcs
    have hw1 := waitForBusy_success busy false 10000 0 9999 (by omega)
      (fun j hj => by simpa using hbefore j hj) (by simpa using hhit)
    simp only [Nat.zero_add] at hw1
    have hw2 := waitForBusy_success busy true 1000 10000 0 (by omega)
      (fun j hj => by omega) (by simpa using hsecond)
    simp [csSelect, hw1, hw2, hcs]
  · intro h0 h1 hhit hcs
    have hw1 := waitForBusy_success busy false 10000 0 0 (by omega)
      (fun j hj => by omega) (by simpa using h0)
    simp only [Nat.zero_add] at hw1
    have hw2 := waitForBusy_success busy true 1000 1 999 (by omega)
      (fun j hj => by
        have := h1 (1 + j) (by omega) (by omega)
        simpa using this)
      (by simpa using hhit)
    simp [csSelect, hw1, hw2, hcs]

/-- Concrete instance of claim C5: a permanently busy line exhausts the
10,000-poll budget and yields the readiness timeout. -/
theorem chip_select_polling_witness :
    csSelect (fun _ => some true) true = .error CsError.deviceReadyTimeout :=
  (chip_select_polling (fun _ => some true) true).1 (fun _ _ => rfl)

theorem socketOpenPoll_timeout (dev : Nat → Nat → Nat) (n : Nat) (sts : Nat → SocketStatus) :
    ∀ fuel exIdx last,
      (∀ j, j < fuel → (socketStatus (dev (exIdx + j)) n).2 = .ok (sts (exIdx + j))) →
      (∀ j, j < fuel → sts (exIdx + j) ≠ .established) →
      socketOpenPoll dev n exIdx fuel last =
        (List.replicate fuel (statusFrame n),
          .err (.socketConnectionFailed
            (if fuel = 0 then last else sts (exIdx + fuel - 1)))) := by
  intro fuel
  induction fuel with
  | zero => intro exIdx last _ _; simp [socketOpenPoll]
  | succ f ih =>
    intro exIdx last hok hne
    have h0 := hok 0 (by omega)
    have h0' := hne 0 (by omega)
    simp only [Nat.add_zero] at h0 h0'
    have hrec := ih (exIdx + 1) (sts exIdx)
      (fun j hj => by
        rw [show exIdx + 1 + j = exIdx + (j + 1) by omega]
        exact hok (j + 1) (by omega))
      (fun j hj => by
        rw [show exIdx + 1 + j = exIdx + (j + 1) by omega]
        exact hne (j + 1) (by omega))
    rw [socketOpenPoll, h0]
    show (if sts exIdx = SocketStatus.established then _
      else (statusFrame n :: (socketOpenPoll dev n (exIdx + 1) f (sts exIdx)).1,
        (socketOpenPoll dev n (exIdx + 1) f (sts exIdx)).2)) = _
    rw [if_neg h0', hrec]
    have hidx : (if f = 0 then sts exIdx else sts (exIdx + 1 + f - 1)) =
        sts (exIdx + (f + 1) - 1) := by
      rcases Nat.eq_zero_or_pos f with hf | hf

      · subst hf; simp
      · rw [if_neg (by omega)]
        congr 1
        omega
    simp [List.replicate_succ, hidx]
    intro hf
    subst hf
    simp

theorem socketOpenPoll_established (dev : Nat → Nat → Nat) (n : Nat)
    (sts : Nat → SocketStatus) :
    ∀ fuel exIdx last m, m < fuel →
      (∀ j, j ≤ m → (socketStatus (dev (exIdx + j)) n).2 = .ok (sts (exIdx + j))) →
      (∀ j, j < m → sts (exIdx + j) ≠ .established) →
      sts (exIdx + m) = .established →
      socketOpenPoll dev n exIdx fuel last =
        (List.replicate (m + 1) (statusFrame n), .ok SocketStatus.established) := by
  intro fuel
  induction fuel with
  | zero => intro exIdx last m hm _ _ _; omega
  | succ f ih =>
    intro exIdx last m hm hok hne hhit
    cases m with
    | zero =>
      have h0 := hok 0 (by omega)
      simp only [Nat.add_zero] at h0 hhit
      rw [socketOpenPoll, h0]
      show (if sts exIdx = SocketStatus.established then
          ([statusFrame n], Outcome.ok SocketStatus.established) else _) = _
      rw [if_pos hhit]
      simp
    | succ m' =>
      have h0 := hok 0 (by omega)
      have h0' := hne 0 (by omega)
      simp only [Nat.add_zero] at h0 h0'
      have hrec := ih (exIdx + 1) (sts exIdx) m' (by omega)
        (fun j hj => by
          rw [show exIdx + 1 + j = exIdx + (j + 1) by omega]
          exact hok (j + 1) (by omega))
        (fun j hj => by
          rw [show exIdx + 1 + j = exIdx + (j + 1) by omega]
          exact hne (j + 1) (by omega))
        (by rw [show exIdx + 1 + m' = exIdx + (m' + 1) by omega]; exact hhit)
      rw [socketOpenPoll, h0]
      show (if sts exIdx = SocketStatus.established then _
        else (statusFrame n :: (socketOpenPoll dev n (exIdx + 1) f (sts exIdx)).1,
          (socketOpenPoll dev n (exIdx + 1) f (sts exIdx)).2)) = _
      rw [if_neg h0', hrec]
      simp [List.replicate_succ]

/-- Claim C7: when the start-client request succeeds (the optional
result byte is present), `socket_open` polls `socket_status` up to 300
times (10 ms apart in the source); if `Established` never appears it
sends exactly the start-client frame plus 300 status frames and fails
with `SocketConnectionFailed` carrying the status observed at the 300th
poll — an error distinct from the generic timeouts; if `Established`
appears at some poll it returns `Established` immediately. -/
theorem socket_open_poll_budget (dev : Nat → Nat → Nat) (n : Nat) (proto : Protocol)
    (dst : Destination) (port : Nat) (r : Nat) (sts : Nat → SocketStatus)
    (h0 : receiveResponse (dev 0) startClientTcp false [.optionalByte] =
      .ok [.optByte (some r)])
    (hst : ∀ k, k < 300 → (socketStatus (dev (k + 1)) n).2 = .ok (sts (k + 1))) :
    ((∀ k, k < 300 → sts (k + 1) ≠ .established) →
      socketOpen dev n proto dst port =
        (sendCommand startClientTcp false (socketOpenSendParams dst port n proto.toByte)
            :: List.replicate 300 (statusFrame n),
          .err (.socketConnectionFailed (sts 300))))
    ∧ (∀ m, m < 300 → sts (m + 1) = .established →
        (∀ k, k < m → sts (k + 1) ≠ .established) →
        socketOpen dev n proto dst port =
          (sendCommand startClientTcp false (socketOpenSendParams dst port n proto.toByte)
              :: List.replicate (m + 1) (statusFrame n),
            .ok SocketStatus.established))
    ∧ (∀ s, Error.socketConnectionFailed s ≠ Error.responseTimeout
        ∧ Error.socketConnectionFailed s ≠ Error.socketTimeout
        ∧ Error.socketConnectionFailed s ≠ Error.connectionTimeout) := by
  refine ⟨?_, ?_, fun s => ⟨by simp, by simp, by simp⟩⟩
  · intro hne
    have hp := socketOpenPoll_timeout dev n sts 300 1 SocketStatus.unknownStatus
      (fun j hj => by
        rw [show (1 : Nat) + j = j + 1 by omega]
        exact hst j hj)
      (fun j hj => by
        rw [show (1 : Nat) + j = j + 1 by omega]
        exact hne j hj)
    have hopen : socketOpen dev n proto dst port =
        (sendCommand startClientTcp false (socketOpenSendParams dst port n proto.toByte)
            :: (socketOpenPoll dev n 1 300 SocketStatus.unknownStatus).1,
          (socketOpenPoll dev n 1 300 SocketStatus.unknownStatus).2) := by
      simp only [socketOpen]
      rw [h0]
    rw [hopen, hp]
    rfl
  · intro m hm hhit hne
    have hp := socketOpenPoll_established dev n sts 300 1 SocketStatus.unknownStatus m hm
      (fun j hj => by
        rw [show (1 : Nat) + j = j + 1 by omega]
        exact hst j (by omega))
      (fun j hj => by
        rw [show (1 : Nat) + j = j + 1 by omega]
        exact hne j hj)
      (by rw [show (1 : Nat) + m = m + 1 by omega]; exact hhit)
    have hopen : socketOpen dev n proto dst port =
        (sendCommand startClientTcp false (socketOpenSendParams dst port n proto.toByte)
            :: (socketOpenPoll dev n 1 300 SocketStatus.unknownStatus).1,
          (socketOpenPoll dev n 1 300 SocketStatus.unknownStatus).2) := by
      simp only [socketOpen]
      rw [h0]
    rw [hopen, hp]

/-- Concrete instance of claim C7: the start-client reply carries a
result byte, every status poll reports `Closed`, and `socket_open` sends
exactly 300 status frames before failing with the last status. -/
theorem socket_open_poll_budget_witness :
    socketOpen (fun k => if k = 0 then streamOf [0xE0, 0xAD, 1, 1, 1]
        else streamOf [0xE0, 0xAF, 1, 1, 0]) 3 Protocol.tcp
      (Destination.ip 192 0 2 1) 80 =
      (sendCommand startClientTcp false
          (socketOpenSendParams (Destination.ip 192 0 2 1) 80 3 Protocol.tcp.toByte)
          :: List.replicate 300 (statusFrame 3),
        .err (.socketConnectionFailed SocketStatus.closed)) :=
  (socket_open_poll_budget (fun k => if k = 0 then streamOf [0xE0, 0xAD, 1, 1, 1]
      else streamOf [0xE0, 0xAF, 1, 1, 0]) 3 Protocol.tcp (Destination.ip 192 0 2 1) 80 1
    (fun _ => SocketStatus.closed) (by decide)
    (by
      intro k _
      show (socketStatus (if k + 1 = 0 then streamOf [0xE0, 0xAD, 1, 1, 1]
        else streamOf [0xE0, 0xAF, 1, 1, 0]) 3).2 = Outcome.ok SocketStatus.closed
      rw [if_neg (Nat.succ_ne_zero k)]
      decide)).1 (fun k _ => by decide)

/-- Claim C4 falsified at a fringe input: `socket_read` computes the
request size as `min(available, buf.len() as u16)`, truncating the
buffer capacity to 16 bits. With 5 bytes available and a 65536-byte
buffer it requests `min 5 0 = 0` bytes, not `min 5 65536 = 5`. -/
theorem socket_read_capacity_truncation :
    (socketRead (fun k => if k = 0 then streamOf [0xE0, 0xAB, 1, 2, 5, 0]
        else streamOf [0xE0, 0xC5, 1, 0, 0]) 3 65536).1 =
      [sendCommand availableDataTcp false [.byte 3],
        sendCommand getDatabufTcp true [.byte 3, .leword 0]]
    ∧ (socketRead (fun k => if k = 0 then streamOf [0xE0, 0xAB, 1, 2, 5, 0]
        else streamOf [0xE0, 0xC5, 1, 0, 0]) 3 65536).1 ≠
      [sendCommand availableDataTcp false [.byte 3],
        sendCommand getDatabufTcp true [.byte 3, .leword (min 5 65536)]] := by
  exact ⟨by decide, by decide⟩

/-- Claim C4 (amended): `socket_read` returns `Ok 0` when zero bytes are
available and the status is `Closed`; signals would-block when zero
bytes are available and the status is anything else; and otherwise
requests `min(available, capacity mod 2^16)` bytes (the capacity is
truncated through `buf.len() as u16`) via a 16-bit-length-mode
`GetDatabufTcp` exchange and returns the length reported by the
peripheral. -/
theorem socket_read_semantics (dev : Nat → Nat → Nat) (n bufCap a : Nat)
    (h0 : receiveResponse (dev 0) availableDataTcp false [.leword] = .ok [.leword a]) :
    (a = 0 → (socketStatus (dev 1) n).2 = .ok SocketStatus.closed →
      socketRead dev n bufCap =
        ([sendCommand availableDataTcp false [.byte n], statusFrame n], .ok 0))
    ∧ (∀ s, a = 0 → (socketStatus (dev 1) n).2 = .ok s → s ≠ SocketStatus.closed →
      socketRead dev n bufCap =
        ([sendCommand availableDataTcp false [.byte n], statusFrame n], .wouldBlock))
    ∧ (∀ bs r, a ≠ 0 →
      receiveResponse (dev 1) getDatabufTcp true [.buffer bufCap] = .ok [.buffer bs r] →
      socketRead dev n bufCap =
        ([sendCommand availableDataTcp false [.byte n],
          sendCommand getDatabufTcp true [.byte n, .leword (min a (bufCap % 65536))]],
          .ok r)) := by
  have hread : socketRead dev n bufCap =
      (if a = 0 then
        match (socketStatus (dev 1) n).2 with
        | .err e => ([sendCommand availableDataTcp false [.byte n], statusFrame n],
            NbOutcome.err e)
        | .panicked => ([sendCommand availableDataTcp false [.byte n], statusFrame n],
            NbOutcome.panicked)
        | .ok st =>
          if st = SocketStatus.closed then
            ([sendCommand availableDataTcp false [.byte n], statusFrame n], NbOutcome.ok 0)
          else
            ([sendCommand availableDataTcp false [.byte n], statusFrame n],
              NbOutcome.wouldBlock)
      else
        match receiveResponse (dev 1) getDatabufTcp true [.buffer bufCap] with
        | .err e => ([sendCommand availableDataTcp false [.byte n],
            sendCommand getDatabufTcp true [.byte n, .leword (min a (bufCap % 65536))]],
            NbOutcome.err e)
        | .panicked => ([sendCommand availableDataTcp false [.byte n],
            sendCommand getDatabufTcp true [.byte n, .leword (min a (bufCap % 65536))]],
            NbOutcome.panicked)
        | .ok vs => ([sendCommand availableDataTcp false [.byte n],
            sendCommand getDatabufTcp true [.byte n, .leword (min a (bufCap % 65536))]],
            NbOutcome.ok (bufferLenOf vs))) := by
    simp only [socketRead]
    rw [h0]
    rfl
  refine ⟨?_, ?_, ?_⟩
  · intro ha hst
    subst ha
    rw [hread, hst]
    rfl
  · intro s ha hst hs
    subst ha
    rw [hread, hst]
    simp [hs]
  · intro bs r ha h1
    rw [hread, if_neg ha, h1]
    rfl

/-- Concrete instance of claim C4 (amended): 5 bytes available, a
10-byte buffer, a requested size of `min 5 (10 mod 2^16) = 5`, and a
reply reporting 2 bytes. -/
theorem socket_read_semantics_witness :
    socketRead (fun k => if k = 0 then streamOf [0xE0, 0xAB, 1, 2, 5, 0]
        else streamOf [0xE0, 0xC5, 1, 0, 2, 7, 8]) 3 10 =
      ([sendCommand availableDataTcp false [.byte 3],
        sendCommand getDatabufTcp true [.byte 3, .leword (min 5 (10 % 65536))]],
        .ok 2) :=
  (socket_read_semantics (fun k => if k = 0 then streamOf [0xE0, 0xAB, 1, 2, 5, 0]
      else streamOf [0xE0, 0xC5, 1, 0, 2, 7, 8]) 3 10 5 (by decide)).2.2
    [7, 8] 2 (by decide) (by decide)

end WifiNina
